import Mathlib

/-!
# Verification of the httpstat request-lifecycle instrumentation

A shallow embedding of the Go sources of `vandancd/httpstat` (request.go,
tracer.go, main.go, transport.go, utils.go and the unnamed resolver file),
together with theorems settling the specification claims about them.

Modelling conventions:
* `time.Time` and `time.Duration` values are nanosecond counts carried as `Int`
  (the Go zero `time.Time` is modelled as `0`).
* Stateful code (package-level variables mutated by the Go functions) becomes
  explicit state passing: each embedded function takes the state it reads and
  returns the state it leaves behind.
* Fallible operations (`net.Dial`, `net.SplitHostPort`, `LookupIP`, the
  redirect check) return `Except String _` / `Option _`; the carried `String`
  is the Go error text where the claims mention it.
* External collaborators (the standard dialer, the DNS dial, the resolv.conf
  file contents) are parameters of the embedded functions, so the theorems
  quantify over their behaviour.
-/

/-! ## Trace Message Log (tracer.go, addTraceMessage) -/

/-- The package-level trace-log state of tracer.go:
`traceMessages`, `lastMessage`, `lastMessageTime`. -/
structure TraceLog where
  traceMessages : List String
  lastMessage : String
  lastMessageTime : Int
deriving DecidableEq

/-- The Go zero values of the three package-level variables. -/
def initialTraceLog : TraceLog := ⟨[], "", 0⟩

/-- The timestamp `now.Format "2006-01-02 15:04:05.000"` renders the wall clock
at millisecond precision: two instants produce the same timestamp string
exactly when they fall in the same millisecond.  We model it by the decimal
rendering of the millisecond count, which has the same equality kernel. -/
def formatTimestamp (now : Int) : String := toString (now / 1000000)

/-- The formatted line built by `addTraceMessage`:
`fmt.Sprintf("%s: %s", timestamp, body)` where `body` is the already
`Sprintf`-formatted message. -/
def formatTraceLine (now : Int) (body : String) : String :=
  formatTimestamp now ++ ": " ++ body

/-- tracer.go `addTraceMessage`: formats the timestamped line, silently drops
it when it equals `lastMessage` and arrives less than 10ms
(10,000,000 ns) after `lastMessageTime`, otherwise appends it and updates
the dedup pair. -/
def addTraceMessage (now : Int) (body : String) (log : TraceLog) : TraceLog :=
  let msg := formatTraceLine now body
  if msg = log.lastMessage ∧ now - log.lastMessageTime < 10000000 then log
  else ⟨log.traceMessages ++ [msg], msg, now⟩

/-- A sequence of `addTraceMessage` calls, each a (time, body) pair. -/
def runTraceCalls (calls : List (Int × String)) (log : TraceLog) : TraceLog :=
  calls.foldl (fun l c => addTraceMessage c.1 c.2 l) log

theorem addTraceMessage_drop {now : Int} {body : String} {log : TraceLog}
    (hmsg : formatTraceLine now body = log.lastMessage)
    (ht : now - log.lastMessageTime < 10000000) :
    addTraceMessage now body log = log := by
  simp [addTraceMessage, hmsg, ht]

theorem addTraceMessage_append_of_ne {now : Int} {body : String} {log : TraceLog}
    (hmsg : formatTraceLine now body ≠ log.lastMessage) :
    (addTraceMessage now body log).traceMessages
      = log.traceMessages ++ [formatTraceLine now body] := by
  simp [addTraceMessage, hmsg]

theorem addTraceMessage_append_of_late {now : Int} {body : String} {log : TraceLog}
    (ht : 10000000 ≤ now - log.lastMessageTime) :
    (addTraceMessage now body log).traceMessages
      = log.traceMessages ++ [formatTraceLine now body] := by
  simp only [addTraceMessage]
  rw [if_neg]
  rintro ⟨-, h⟩
  omega

theorem addTraceMessage_extends (now : Int) (body : String) (log : TraceLog) :
    ∃ tail, (addTraceMessage now body log).traceMessages
      = log.traceMessages ++ tail
      ∧ (tail = [] ∨ tail = [formatTraceLine now body]) := by
  by_cases h : formatTraceLine now body = log.lastMessage
      ∧ now - log.lastMessageTime < 10000000
  · exact ⟨[], by simp [addTraceMessage, h], Or.inl rfl⟩
  · exact ⟨[formatTraceLine now body], by simp [addTraceMessage, h], Or.inr rfl⟩

theorem runTraceCalls_extends (calls : List (Int × String)) (log : TraceLog) :
    ∃ tail, (runTraceCalls calls log).traceMessages
      = log.traceMessages ++ tail
      ∧ tail.Sublist (calls.map (fun c => formatTraceLine c.1 c.2)) := by
  induction calls generalizing log with
  | nil => exact ⟨[], by simp [runTraceCalls], List.Sublist.refl _⟩
  | cons c rest ih =>
    obtain ⟨tail, htail, hsub⟩ := ih (addTraceMessage c.1 c.2 log)
    obtain ⟨t0, ht0, ht0cases⟩ := addTraceMessage_extends c.1 c.2 log
    refine ⟨t0 ++ tail, ?_, ?_⟩
    · simp only [runTraceCalls, List.foldl_cons] at htail ⊢
      rw [htail, ht0, List.append_assoc]
    · rcases ht0cases with h | h <;> subst h <;> simp
      · exact hsub.cons _
      · exact hsub

/-- C4: per-call behaviour of the trace-log append operation.  The formatted
timestamped line is appended unless it is textually identical to the
immediately preceding appended message (the dedup state tracks the last
*appended* line) and arrives strictly less than 10ms after it; a line
arriving ≥ 10ms after the last appended one is always appended; a line
differing from the immediately preceding appended one is always appended
(so non-adjacent duplicates are never merged); and any sequence of calls
only ever extends the log at the end, in emission order. -/
theorem addTraceMessage_dedup_spec (now : Int) (body : String) (log : TraceLog)
    (calls : List (Int × String)) :
    ((formatTraceLine now body = log.lastMessage
        ∧ now - log.lastMessageTime < 10000000) →
      (addTraceMessage now body log).traceMessages = log.traceMessages)
    ∧ (formatTraceLine now body ≠ log.lastMessage →
      (addTraceMessage now body log).traceMessages
        = log.traceMessages ++ [formatTraceLine now body])
    ∧ (10000000 ≤ now - log.lastMessageTime →
      (addTraceMessage now body log).traceMessages
        = log.traceMessages ++ [formatTraceLine now body])
    ∧ (∃ tail, (runTraceCalls calls log).traceMessages
        = log.traceMessages ++ tail
        ∧ tail.Sublist (calls.map (fun c => formatTraceLine c.1 c.2))) := by
  refine ⟨fun h => ?_, fun h => addTraceMessage_append_of_ne h,
    fun h => addTraceMessage_append_of_late h, runTraceCalls_extends calls log⟩
  rw [addTraceMessage_drop h.1 h.2]

/-- Witness for C4 at a concrete input: a line identical to the preceding
appended one, arriving 0.4ms later (same rendered millisecond), is dropped. -/
theorem addTraceMessage_dedup_spec_witness :
    (formatTraceLine 400000 "x" = (⟨["0: x"], "0: x", 0⟩ : TraceLog).lastMessage
        ∧ (400000 : Int) - (⟨["0: x"], "0: x", 0⟩ : TraceLog).lastMessageTime
          < 10000000)
    ∧ (addTraceMessage 400000 "x" ⟨["0: x"], "0: x", 0⟩).traceMessages
        = ["0: x"] :=
  ⟨⟨by decide, by decide⟩,
    (addTraceMessage_dedup_spec 400000 "x" ⟨["0: x"], "0: x", 0⟩ []).1
      ⟨by decide, by decide⟩⟩

/-- C9 (code behaviour at the claimed scenario): three calls with the
identical body "x" at t = 0, t+6ms and t+12ms.  Because every formatted line
embeds its millisecond-precision timestamp, the three lines are pairwise
distinct, so the dedup comparison `msg == lastMessage` never fires and all
three are appended — the middle call is *not* dropped, although the code's
own comment promises deduplication of messages within 10ms of each other. -/
theorem addTraceMessage_misses_cross_millisecond_duplicate :
    (addTraceMessage 12000000 "x"
      (addTraceMessage 6000000 "x"
        (addTraceMessage 0 "x" initialTraceLog))).traceMessages
      = ["0: x", "6: x", "12: x"] := by decide

/-- C9 (the true half of the claim): a dropped duplicate leaves the dedup
pair untouched, so the 10ms window keeps being measured from the last
message actually appended. -/
theorem addTraceMessage_drop_keeps_state {now : Int} {body : String}
    {log : TraceLog}
    (hmsg : formatTraceLine now body = log.lastMessage)
    (ht : now - log.lastMessageTime < 10000000) :
    addTraceMessage now body log = log :=
  addTraceMessage_drop hmsg ht

/-! ## Duration formatting (request.go, formatDuration) -/

/-- Renders a natural number below 100 in exactly two digits, the way
`%.2f` renders the fractional part. -/
def pad2 (n : Nat) : String := if n < 10 then "0" ++ toString n else toString n

/-- Rounds a nonnegative nanosecond count to the nearest hundredth of a
millisecond (i.e. to the nearest multiple of 10,000 ns), ties to even —
the rounding `%.2f` applies to the exact value. -/
def roundCentiMs (n : Nat) : Nat :=
  if 5000 < n % 10000 then n / 10000 + 1
  else if n % 10000 < 5000 then n / 10000
  else if (n / 10000) % 2 = 0 then n / 10000 else n / 10000 + 1

/-- request.go `formatDuration`: Go computes `float64(d.Nanoseconds())/1e6`
and prints it with `"%.2fms"`.  We model the conversion exactly over the
integers: the printed number is the duration in milliseconds rounded to two
decimal places (the binary `float64` detour can disagree only on inputs
within double-rounding distance of a half-ulp tie, none of which the claims
touch). -/
def formatDuration (d : Int) : String :=
  if d < 0 then
    "-" ++ toString (roundCentiMs d.natAbs / 100) ++ "."
      ++ pad2 (roundCentiMs d.natAbs % 100) ++ "ms"
  else
    toString (roundCentiMs d.natAbs / 100) ++ "."
      ++ pad2 (roundCentiMs d.natAbs % 100) ++ "ms"

theorem pad2_length : ∀ n < 100, (pad2 n).length = 2 := by decide

/-- C8: every nonnegative duration is rendered as its millisecond value with
exactly two decimal digits (the printed centi-millisecond count is within
half a unit of the exact value `d / 10^4`) followed by the literal suffix
"ms"; and 1,234,567 ns renders as exactly "1.23ms". -/
theorem formatDuration_two_decimals_ms (d : Int) (hd : 0 ≤ d) :
    formatDuration d
      = toString (roundCentiMs d.natAbs / 100) ++ "."
        ++ pad2 (roundCentiMs d.natAbs % 100) ++ "ms"
    ∧ (pad2 (roundCentiMs d.natAbs % 100)).length = 2
    ∧ roundCentiMs d.natAbs * 10000 ≤ d.natAbs + 5000
    ∧ d.natAbs ≤ roundCentiMs d.natAbs * 10000 + 5000
    ∧ formatDuration 1234567 = "1.23ms" := by
  refine ⟨?_, ?_, ?_, ?_, by decide⟩
  · simp [formatDuration, not_lt.mpr hd]
  · exact pad2_length _ (Nat.mod_lt _ (by omega))
  · unfold roundCentiMs
    split_ifs <;> omega
  · unfold roundCentiMs
    split_ifs <;> omega

/-- Witness for C8 at d = 1,234,567 ns. -/
theorem formatDuration_two_decimals_ms_witness :
    (0 : Int) ≤ 1234567
    ∧ (formatDuration 1234567
        = toString (roundCentiMs (1234567 : Int).natAbs / 100) ++ "."
          ++ pad2 (roundCentiMs (1234567 : Int).natAbs % 100) ++ "ms"
      ∧ (pad2 (roundCentiMs (1234567 : Int).natAbs % 100)).length = 2
      ∧ roundCentiMs (1234567 : Int).natAbs * 10000 ≤ (1234567 : Int).natAbs + 5000
      ∧ (1234567 : Int).natAbs ≤ roundCentiMs (1234567 : Int).natAbs * 10000 + 5000
      ∧ formatDuration 1234567 = "1.23ms") :=
  ⟨by decide, formatDuration_two_decimals_ms 1234567 (by decide)⟩

/-! ## System DNS configuration (unnamed resolver file, getSystemDNSServers) -/

/-- Go `strings.HasPrefix`, as a structural recursion over the character
lists so that concrete instances evaluate inside the kernel. -/
def goStartsWithAux : List Char → List Char → Bool
  | [], _ => true
  | _ :: _, [] => false
  | p :: ps, c :: cs => p == c && goStartsWithAux ps cs

/-- `strings.HasPrefix s pre` / `line.startsWith pre`. -/
def goStartsWith (s pre : String) : Bool := goStartsWithAux pre.data s.data

/-- Go `unicode.IsSpace`, restricted to the characters that can occur in a
`bufio.Scanner` line of resolv.conf. -/
def isGoSpace (c : Char) : Bool := c == ' ' || c == '\t' || c == '\r' || c == '\n'

/-- Splits a character list into maximal whitespace-free runs, the way Go
`strings.Fields` does (no empty fields). `acc` holds the current field in
reverse. -/
def goFieldsAux : List Char → List Char → List (List Char)
  | [], acc => if acc.isEmpty then [] else [acc.reverse]
  | c :: cs, acc =>
    if isGoSpace c then
      if acc.isEmpty then goFieldsAux cs [] else acc.reverse :: goFieldsAux cs []
    else goFieldsAux cs (c :: acc)

/-- Go `strings.Fields`: the whitespace-separated fields of a line (lines
handed out by `bufio.Scanner` contain no newline). -/
def goFields (s : String) : List String :=
  (goFieldsAux s.data []).map fun w => String.mk w

/-- `getSystemDNSServers`: scans the resolv.conf lines (modelled as
`Option (List String)`, `none` when `os.Open` fails, in which case the Go
function returns `nil` immediately); a line passing
`strings.HasPrefix(line, "nameserver")` with at least two whitespace
fields contributes its second field. -/
def getSystemDNSServers (resolvConf : Option (List String)) : List String :=
  match resolvConf with
  | none => []
  | some lines =>
    lines.foldl
      (fun servers line =>
        if goStartsWith line "nameserver" then
          if 2 ≤ (goFields line).length then
            servers ++ [(goFields line).getD 1 ""]
          else servers
        else servers)
      []

/-- Follows the spec's words for C7 (refinement side): a line is a DNS-server
line when it begins with the *token* `nameserver` — the literal word
followed by whitespace — and an address. -/
def specNameserverLine (line : String) : Prop :=
  (goStartsWith line "nameserver " = true ∨ goStartsWith line "nameserver\t" = true)
    ∧ 2 ≤ (goFields line).length

instance (line : String) : Decidable (specNameserverLine line) := by
  unfold specNameserverLine
  infer_instance

/-- The per-line contribution of `getSystemDNSServers`, used to state that
the accepted lines are exactly those passing the `HasPrefix` test with at
least two fields. -/
def nameserverField (line : String) : Option String :=
  if goStartsWith line "nameserver" ∧ 2 ≤ (goFields line).length then
    some ((goFields line).getD 1 "")
  else none

theorem getSystemDNSServers_foldl (lines : List String) (acc : List String) :
    lines.foldl
      (fun servers line =>
        if goStartsWith line "nameserver" then
          if 2 ≤ (goFields line).length then
            servers ++ [(goFields line).getD 1 ""]
          else servers
        else servers)
      acc = acc ++ lines.filterMap nameserverField := by
  induction lines generalizing acc with
  | nil => simp
  | cons l rest ih =>
    simp only [List.foldl_cons, List.filterMap_cons]
    by_cases h1 : goStartsWith l "nameserver"
    · by_cases h2 : 2 ≤ (goFields l).length
      · rw [if_pos h1, if_pos h2, ih]
        simp [nameserverField, h1, h2]
      · rw [if_pos h1, if_neg h2, ih]
        simp [nameserverField, h1, h2]
    · rw [if_neg h1, ih]
      simp [nameserverField, h1]

/-! ## DNSStart hook (tracer.go, createTracer) -/

/-- The informational message listing the system's DNS servers. -/
def sysDNSMsg (resolvConf : Option (List String)) : String :=
  let joined := String.intercalate ", " (getSystemDNSServers resolvConf)
  s!"Using system DNS servers: {joined}"

/-- The message naming the host being resolved. -/
def dnsHostMsg (host : String) : String := s!"DNS lookup starting for {host}"

/-- The bodies the `DNSStart` hook passes to `addTraceMessage`, in order:
when no custom resolver is configured (`resolver == nil`) and
`getSystemDNSServers` parsed at least one server, the system-servers line;
then, always, the host line. -/
def dnsStartTraceBodies (resolverConfigured : Bool)
    (resolvConf : Option (List String)) (host : String) : List String :=
  (if resolverConfigured = false then
    if 0 < (getSystemDNSServers resolvConf).length then [sysDNSMsg resolvConf]
    else []
  else []) ++ [dnsHostMsg host]

/-- C7 counterexample: the line "nameserverfoo 9.9.9.9" does not begin with
the token `nameserver` followed by whitespace, yet `getSystemDNSServers`
treats it as a configured DNS server, because the code only checks
`strings.HasPrefix(line, "nameserver")`. -/
theorem getSystemDNSServers_accepts_prefixed_word :
    getSystemDNSServers (some ["nameserverfoo 9.9.9.9"]) = ["9.9.9.9"]
    ∧ ¬ specNameserverLine "nameserverfoo 9.9.9.9" := by decide

/-- C7 (amended): the configured servers are exactly the second fields of the
lines whose *text* begins with the string "nameserver" (token boundary not
required) and that have at least two whitespace fields; an unreadable file
yields no servers; and the DNSStart hook emits the system-servers message
exactly when no custom resolver is configured and at least one server was
parsed — in particular never when the file was unreadable — while the
host message is always emitted. -/
theorem getSystemDNSServers_spec (lines : List String) (resolverConfigured : Bool)
    (resolvConf : Option (List String)) (host : String) :
    getSystemDNSServers (some lines) = lines.filterMap nameserverField
    ∧ getSystemDNSServers none = []
    ∧ ((dnsStartTraceBodies resolverConfigured resolvConf host).length = 2
        ↔ (resolverConfigured = false ∧ getSystemDNSServers resolvConf ≠ []))
    ∧ ((resolverConfigured = false ∧ getSystemDNSServers resolvConf ≠ []) →
        dnsStartTraceBodies resolverConfigured resolvConf host
          = [sysDNSMsg resolvConf, dnsHostMsg host])
    ∧ ((resolverConfigured = true ∨ getSystemDNSServers resolvConf = []) →
        dnsStartTraceBodies resolverConfigured resolvConf host
          = [dnsHostMsg host])
    ∧ dnsStartTraceBodies resolverConfigured none host = [dnsHostMsg host] := by
  refine ⟨getSystemDNSServers_foldl lines [], rfl, ?_, ?_, ?_, ?_⟩
  · unfold dnsStartTraceBodies
    rcases resolverConfigured with _ | _ <;>
      rcases h : getSystemDNSServers resolvConf with _ | ⟨s, rest⟩ <;>
        simp [h]
  · rintro ⟨hrc, hne⟩
    subst hrc
    unfold dnsStartTraceBodies
    rcases h : getSystemDNSServers resolvConf with _ | ⟨s, rest⟩
    · exact absurd h hne
    · simp [h]
  · rintro (hrc | hempty)
    · subst hrc
      simp [dnsStartTraceBodies]
    · simp [dnsStartTraceBodies, hempty]
  · simp [dnsStartTraceBodies, getSystemDNSServers]

/-! ## Timing Phase Tracker (transport.go types, tracer.go createTracer) -/

/-- The `Timing` struct: per-hop durations plus the connection-reuse flag. -/
structure Timing where
  dnsLookup : Int
  tcpConnection : Int
  tlsHandshake : Int
  serverProcessing : Int
  contentTransfer : Int
  total : Int
  reusedConnection : Bool
deriving DecidableEq

/-- The Go zero value `Timing{}`. -/
def zeroTiming : Timing := ⟨0, 0, 0, 0, 0, 0, false⟩

/-- The local variables captured by the closure returned by `createTracer`:
`start, connect, dns, tlsHandshake, firstByte` (all `time.Time`). -/
structure TracerLocals where
  start : Int
  connect : Int
  dns : Int
  tlsHandshake : Int
  firstByte : Int
deriving DecidableEq

/-- Zero values of the tracer's local `time.Time` variables. -/
def zeroLocals : TracerLocals := ⟨0, 0, 0, 0, 0⟩

/-- One connection-lifecycle callback of `httptrace.ClientTrace`, tagged with
the wall-clock instant `now` at which it fires and the payload the transport
passes to it. -/
inductive TraceEvent where
  | dnsStart (now : Int) (host : String)
  | dnsDone (now : Int)
  | connectStart (now : Int) (addr : String)
  | connectDone (now : Int) (addr : String) (failed : Bool)
  | tlsHandshakeStart (now : Int)
  | tlsHandshakeDone (now : Int) (err : Option String)
  | gotFirstResponseByte (now : Int)
  | getConn (now : Int) (hostPort : String)
  | gotConn (now : Int) (reused : Bool) (wasIdle : Bool) (idleTime : Int)
deriving DecidableEq

/-- The full state a tracer built by `createTracer` reads and writes: its
local clock variables, the bound `Timing` instance, and the package-level
trace log. -/
structure TracerState where
  locals : TracerLocals
  timing : Timing
  log : TraceLog
deriving DecidableEq

/-- Renders a Go `bool` with `%v`. -/
def goBool (b : Bool) : String := if b then "true" else "false"

/-- The `GotConn` trace message (the `%v` rendering of the idle duration is
abbreviated to its nanosecond count). -/
def gotConnMsg (reused wasIdle : Bool) (idleTime : Int) : String :=
  let r := goBool reused
  let w := goBool wasIdle
  let i := toString idleTime
  s!"Got connection: reused={r}, was_idle={w}, idle_time={i}"

/-- tracer.go `createTracer`: one step of the event-callback state machine.
Each case is the corresponding `httptrace.ClientTrace` closure;
`resolverConfigured` models the package-level `resolver != nil` test and
`resolvConf` the contents of /etc/resolv.conf read by `getSystemDNSServers`. -/
def traceStep (resolverConfigured : Bool) (resolvConf : Option (List String))
    (s : TracerState) : TraceEvent → TracerState
  | .dnsStart now host =>
    { s with
      locals := { s.locals with dns := now },
      log := (dnsStartTraceBodies resolverConfigured resolvConf host).foldl
        (fun l b => addTraceMessage now b l) s.log }
  | .dnsDone now =>
    { s with timing := { s.timing with dnsLookup := now - s.locals.dns } }
  | .connectStart now addr =>
    { s with
      locals := { s.locals with connect := now },
      log := addTraceMessage now s!"Connection attempt to {addr}" s.log }
  | .connectDone now _ _ =>
    { s with timing := { s.timing with tcpConnection := now - s.locals.connect } }
  | .tlsHandshakeStart now =>
    { s with
      locals := { s.locals with tlsHandshake := now },
      log := addTraceMessage now "TLS handshake starting" s.log }
  | .tlsHandshakeDone now err =>
    { s with
      timing := { s.timing with tlsHandshake := now - s.locals.tlsHandshake },
      log := match err with
        | some e => addTraceMessage now s!"TLS handshake failed: {e}" s.log
        | none => addTraceMessage now "TLS handshake completed" s.log }
  | .gotFirstResponseByte now =>
    { s with
      locals := { s.locals with firstByte := now },
      timing := { s.timing with serverProcessing := now - s.locals.start },
      log := addTraceMessage now "First response byte received (TTFB)" s.log }
  | .getConn now hostPort =>
    { s with
      locals := { s.locals with start := now },
      log := addTraceMessage now s!"Getting connection for {hostPort}" s.log }
  | .gotConn now reused wasIdle idleTime =>
    let withFlag := { s.timing with reusedConnection := reused }
    { s with
      timing :=
        if reused then
          { withFlag with dnsLookup := 0, tcpConnection := 0, tlsHandshake := 0 }
        else withFlag,
      log := addTraceMessage now (gotConnMsg reused wasIdle idleTime) s.log }

/-- Runs the tracer over a hop's event sequence. -/
def runTracer (resolverConfigured : Bool) (resolvConf : Option (List String))
    (s : TracerState) (events : List TraceEvent) : TracerState :=
  events.foldl (traceStep resolverConfigured resolvConf) s

/-- The events whose handlers write `dnsLookup`, `tcpConnection`,
`tlsHandshake` or `reusedConnection`: `DNSDone`, `ConnectDone`,
`TLSHandshakeDone` and `GotConn`.  After `GotConn` fires, the transport
emits none of the connection-establishment callbacks for that hop. -/
def TraceEvent.touchesEstablishTiming : TraceEvent → Bool
  | .dnsDone _ => true
  | .connectDone _ _ _ => true
  | .tlsHandshakeDone _ _ => true
  | .gotConn _ _ _ _ => true
  | _ => false

theorem traceStep_preserves_establish (rc : Bool) (cfg : Option (List String))
    (s : TracerState) (e : TraceEvent) (he : e.touchesEstablishTiming = false) :
    (traceStep rc cfg s e).timing.dnsLookup = s.timing.dnsLookup
    ∧ (traceStep rc cfg s e).timing.tcpConnection = s.timing.tcpConnection
    ∧ (traceStep rc cfg s e).timing.tlsHandshake = s.timing.tlsHandshake
    ∧ (traceStep rc cfg s e).timing.reusedConnection
        = s.timing.reusedConnection := by
  cases e <;> simp_all [traceStep, TraceEvent.touchesEstablishTiming]

theorem runTracer_preserves_establish (rc : Bool) (cfg : Option (List String))
    (s : TracerState) (es : List TraceEvent)
    (hes : es.all (fun e => e.touchesEstablishTiming = false)) :
    (runTracer rc cfg s es).timing.dnsLookup = s.timing.dnsLookup
    ∧ (runTracer rc cfg s es).timing.tcpConnection = s.timing.tcpConnection
    ∧ (runTracer rc cfg s es).timing.tlsHandshake = s.timing.tlsHandshake
    ∧ (runTracer rc cfg s es).timing.reusedConnection
        = s.timing.reusedConnection := by
  induction es generalizing s with
  | nil => simp [runTracer]
  | cons e rest ih =>
    simp only [List.all_cons, Bool.and_eq_true, decide_eq_true_eq] at hes
    have h1 := traceStep_preserves_establish rc cfg s e hes.1
    have h2 := ih (traceStep rc cfg s e) (by simpa using hes.2)
    simp only [runTracer, List.foldl_cons] at h2 ⊢
    exact ⟨h2.1.trans h1.1, h2.2.1.trans h1.2.1, h2.2.2.1.trans h1.2.2.1,
      h2.2.2.2.trans h1.2.2.2⟩

/-- C3: the `GotConn` handler forces `dnsLookup`, `tcpConnection` and
`tlsHandshake` to zero whenever the connection is reported as reused, and
therefore, for any hop whose event sequence contains a reused `GotConn`
followed only by events that do not touch the establishment timing (as the
transport guarantees once the connection is obtained), the completed hop's
Timing has `reusedConnection = true` and the three phase durations exactly
zero. -/
theorem gotConn_reused_zeroes_establish (rc : Bool) (cfg : Option (List String))
    (s0 : TracerState) (es1 es2 : List TraceEvent) (now idleTime : Int)
    (wasIdle : Bool)
    (hes : es2.all (fun e => e.touchesEstablishTiming = false)) :
    ((traceStep rc cfg s0 (.gotConn now true wasIdle idleTime)).timing.dnsLookup = 0
      ∧ (traceStep rc cfg s0 (.gotConn now true wasIdle idleTime)).timing.tcpConnection = 0
      ∧ (traceStep rc cfg s0 (.gotConn now true wasIdle idleTime)).timing.tlsHandshake = 0
      ∧ (traceStep rc cfg s0 (.gotConn now true wasIdle idleTime)).timing.reusedConnection = true)
    ∧ ((runTracer rc cfg s0
          (es1 ++ .gotConn now true wasIdle idleTime :: es2)).timing.reusedConnection = true
      ∧ (runTracer rc cfg s0
          (es1 ++ .gotConn now true wasIdle idleTime :: es2)).timing.dnsLookup = 0
      ∧ (runTracer rc cfg s0
          (es1 ++ .gotConn now true wasIdle idleTime :: es2)).timing.tcpConnection = 0
      ∧ (runTracer rc cfg s0
          (es1 ++ .gotConn now true wasIdle idleTime :: es2)).timing.tlsHandshake = 0) := by
  constructor
  · simp [traceStep]
  · have hsplit : runTracer rc cfg s0 (es1 ++ .gotConn now true wasIdle idleTime :: es2)
        = runTracer rc cfg
            (traceStep rc cfg (runTracer rc cfg s0 es1)
              (.gotConn now true wasIdle idleTime)) es2 := by
      simp [runTracer, List.foldl_append]
    have hmid : (traceStep rc cfg (runTracer rc cfg s0 es1)
        (.gotConn now true wasIdle idleTime)).timing.dnsLookup = 0
        ∧ (traceStep rc cfg (runTracer rc cfg s0 es1)
            (.gotConn now true wasIdle idleTime)).timing.tcpConnection = 0
        ∧ (traceStep rc cfg (runTracer rc cfg s0 es1)
            (.gotConn now true wasIdle idleTime)).timing.tlsHandshake = 0
        ∧ (traceStep rc cfg (runTracer rc cfg s0 es1)
            (.gotConn now true wasIdle idleTime)).timing.reusedConnection = true := by
      simp [traceStep]
    have hrest := runTracer_preserves_establish rc cfg
      (traceStep rc cfg (runTracer rc cfg s0 es1)
        (.gotConn now true wasIdle idleTime)) es2 hes
    rw [hsplit]
    exact ⟨hrest.2.2.2.trans hmid.2.2.2, hrest.1.trans hmid.1,
      hrest.2.1.trans hmid.2.1, hrest.2.2.1.trans hmid.2.2.1⟩

/-- Witness for C3: a concrete reused-connection hop (get connection, reused
GotConn, first byte) ends with the three establishment durations at zero. -/
theorem gotConn_reused_zeroes_establish_witness :
    ([TraceEvent.gotFirstResponseByte 9].all
        (fun e => e.touchesEstablishTiming = false))
    ∧ (runTracer false none ⟨zeroLocals, zeroTiming, initialTraceLog⟩
        ([TraceEvent.getConn 1 "example.com:80"]
          ++ TraceEvent.gotConn 5 true true 100 :: [TraceEvent.gotFirstResponseByte 9])).timing.reusedConnection = true
    ∧ (runTracer false none ⟨zeroLocals, zeroTiming, initialTraceLog⟩
        ([TraceEvent.getConn 1 "example.com:80"]
          ++ TraceEvent.gotConn 5 true true 100 :: [TraceEvent.gotFirstResponseByte 9])).timing.dnsLookup = 0 :=
  ⟨by decide,
    ((gotConn_reused_zeroes_establish false none
      ⟨zeroLocals, zeroTiming, initialTraceLog⟩
      [TraceEvent.getConn 1 "example.com:80"] [TraceEvent.gotFirstResponseByte 9]
      5 100 true (by decide)).2).1,
    ((gotConn_reused_zeroes_establish false none
      ⟨zeroLocals, zeroTiming, initialTraceLog⟩
      [TraceEvent.getConn 1 "example.com:80"] [TraceEvent.gotFirstResponseByte 9]
      5 100 true (by decide)).2).2.1⟩

/-! ## Redirect Chain Collector (request.go, handleRedirect) -/

/-- The `RedirectInfo` struct of transport.go.  `handleRedirect` builds it
with a struct literal that leaves `TraceMessages` at its zero value `nil`. -/
structure RedirectInfo where
  url : String
  statusCode : Int
  status : String
  startTime : Int
  endTime : Int
  timing : Timing
  traceMessages : List String
deriving DecidableEq

/-- What `handleRedirect` reads from `req.Response` (the response that
caused the redirect): the URL and status of the request that produced it,
and the values stored in that request's context under
`timingContextKey` / `startTimeContextKey`.  `ctxTiming` is `none` when the
context holds no `*Timing` (the type assertion `, ok` fails). -/
structure LastResponse where
  url : String
  statusCode : Int
  status : String
  ctxTiming : Option Timing
  ctxStartTime : Int
deriving DecidableEq

/-- The mutable state `handleRedirect` touches: the `redirects` slice passed
by pointer, the package-level trace log, and `globalTraceMessages`. -/
structure RedirectState where
  redirects : List RedirectInfo
  log : TraceLog
  globalTraceMessages : List String
deriving DecidableEq

/-- What one `handleRedirect` invocation produces: the updated state, the
fresh hop context installed on the outgoing request (`startTimeContextKey`
time and the new zeroed `Timing`) when a snapshot happened, and the
returned error. -/
structure RedirectCheck where
  state : RedirectState
  newHopCtx : Option (Int × Timing)
  err : Option String
deriving DecidableEq

/-- `fmt.Errorf("stopped after %d redirects (max: %d)", len(via), maxRedirects)`. -/
def redirectErrMsg (viaLen maxRedirects : Nat) : String :=
  s!"stopped after {viaLen} redirects (max: {maxRedirects})"

/-- The `RedirectInfo` literal built by `handleRedirect` for the
just-completed hop (`EndTime: time.Now()` is the invocation instant). -/
def snapInfo (lr : LastResponse) (now : Int) (t : Timing) : RedirectInfo :=
  ⟨lr.url, lr.statusCode, lr.status, lr.ctxStartTime, now, t, []⟩

/-- request.go `handleRedirect`: when the triggering response and its
context `Timing` are present, appends the hop's trace messages to the
global list, appends a `RedirectInfo` snapshot to the redirect chain,
resets the trace log and its dedup pair, and installs a fresh hop context;
then — after all of that — returns the redirect-limit error iff
`len(via) >= maxRedirects`. -/
def handleRedirect (lastResponse : Option LastResponse)
    (viaLen maxRedirects : Nat) (now : Int) (st : RedirectState) :
    RedirectCheck :=
  let snapped : RedirectState × Option (Int × Timing) :=
    match lastResponse with
    | none => (st, none)
    | some lr =>
      match lr.ctxTiming with
      | none => (st, none)
      | some currentTiming =>
        (⟨st.redirects ++ [snapInfo lr now currentTiming],
          ⟨[], "", 0⟩,
          st.globalTraceMessages ++ st.log.traceMessages⟩,
         some (now, zeroTiming))
  if maxRedirects ≤ viaLen then
    ⟨snapped.1, snapped.2, some (redirectErrMsg viaLen maxRedirects)⟩
  else
    ⟨snapped.1, snapped.2, none⟩

/-- C1 counterexample: a failing invocation (2 hops already attempted,
maximum 2) with the triggering response and its timing context present
returns the redirect-limit error *and* still appends a `RedirectInfo` for
the just-completed hop — the chain is not left unchanged. -/
theorem handleRedirect_appends_on_failing_invocation :
    (handleRedirect (some ⟨"http://a", 301, "301 Moved Permanently", some zeroTiming, 0⟩)
        2 2 5 ⟨[], ⟨[], "", 0⟩, []⟩).err
      = some "stopped after 2 redirects (max: 2)"
    ∧ (handleRedirect (some ⟨"http://a", 301, "301 Moved Permanently", some zeroTiming, 0⟩)
        2 2 5 ⟨[], ⟨[], "", 0⟩, []⟩).state.redirects
      = [⟨"http://a", 301, "301 Moved Permanently", 0, 5, zeroTiming, []⟩]
    ∧ (⟨[], ⟨[], "", 0⟩, []⟩ : RedirectState).redirects = [] := by decide

/-- C1 (amended): the collector fails with the redirect-limit error exactly
when the number of hops already attempted reaches the configured maximum,
but the snapshot is not conditional on that check: whenever the triggering
response and its context Timing are present — failing invocation or not —
a `RedirectInfo` for the just-completed hop is constructed and appended
(and the trace log is flushed to the global list and reset); the chain is
left unchanged only when the response or its timing context is absent. -/
theorem handleRedirect_snapshot_unconditional (lr : LastResponse) (t : Timing)
    (viaLen maxRedirects : Nat) (now : Int) (st : RedirectState)
    (h : lr.ctxTiming = some t) :
    (handleRedirect (some lr) viaLen maxRedirects now st).state.redirects
      = st.redirects ++ [snapInfo lr now t]
    ∧ (handleRedirect (some lr) viaLen maxRedirects now st).err
      = (if maxRedirects ≤ viaLen then some (redirectErrMsg viaLen maxRedirects)
          else none)
    ∧ (((handleRedirect (some lr) viaLen maxRedirects now st).err).isSome
        ↔ maxRedirects ≤ viaLen)
    ∧ (handleRedirect (some lr) viaLen maxRedirects now st).state.log = ⟨[], "", 0⟩
    ∧ (handleRedirect (some lr) viaLen maxRedirects now st).state.globalTraceMessages
      = st.globalTraceMessages ++ st.log.traceMessages
    ∧ (handleRedirect (some lr) viaLen maxRedirects now st).newHopCtx
      = some (now, zeroTiming)
    ∧ (handleRedirect none viaLen maxRedirects now st).state = st
    ∧ (handleRedirect (some { lr with ctxTiming := none })
        viaLen maxRedirects now st).state = st := by
  by_cases hlim : maxRedirects ≤ viaLen <;>
    simp [handleRedirect, h, hlim]

/-- Witness for C1's amended theorem at a concrete failing invocation. -/
theorem handleRedirect_snapshot_unconditional_witness :
    (⟨"http://a", 301, "301 Moved Permanently", some zeroTiming, 0⟩
        : LastResponse).ctxTiming = some zeroTiming
    ∧ (handleRedirect
        (some ⟨"http://a", 301, "301 Moved Permanently", some zeroTiming, 0⟩)
        2 2 5 ⟨[], ⟨[], "", 0⟩, []⟩).state.redirects
      = (⟨[], ⟨[], "", 0⟩, []⟩ : RedirectState).redirects
        ++ [snapInfo ⟨"http://a", 301, "301 Moved Permanently", some zeroTiming, 0⟩
              5 zeroTiming] :=
  ⟨rfl,
    (handleRedirect_snapshot_unconditional
      ⟨"http://a", 301, "301 Moved Permanently", some zeroTiming, 0⟩ zeroTiming
      2 2 5 ⟨[], ⟨[], "", 0⟩, []⟩ rfl).1⟩

/-- Models the Go `http.Client` redirect loop at its interface boundary:
before following the k-th redirect the client invokes `CheckRedirect`
(wired by main.go to `handleRedirect`) with `via` holding the k requests
made so far; a non-nil return aborts the transaction.  Each element of
`resps` is the response triggering the next redirect (as seen through the
request context) paired with the instant of the check; the result carries
the final collector state, the error (if any), and the number of
`handleRedirect` invocations performed. -/
def followRedirects (resps : List (LastResponse × Int))
    (maxRedirects viaLen : Nat) (st : RedirectState) :
    RedirectState × Option String × Nat :=
  match resps with
  | [] => (st, none, 0)
  | (r, now) :: rest =>
    let c := handleRedirect (some r) viaLen maxRedirects now st
    match c.err with
    | some e => (c.state, some e, 1)
    | none =>
      let o := followRedirects rest maxRedirects (viaLen + 1) c.state
      (o.1, o.2.1, o.2.2 + 1)

/-- The chain entry the k-th check appends. -/
def snapOf (p : LastResponse × Int) : RedirectInfo :=
  snapInfo p.1 p.2 (p.1.ctxTiming.getD zeroTiming)

theorem followRedirects_all_pass (resps : List (LastResponse × Int))
    (maxRedirects : Nat) :
    ∀ viaLen st, (resps.all fun p => p.1.ctxTiming.isSome) = true →
      viaLen + resps.length ≤ maxRedirects →
      (followRedirects resps maxRedirects viaLen st).1.redirects
          = st.redirects ++ resps.map snapOf
        ∧ (followRedirects resps maxRedirects viaLen st).2.1 = none
        ∧ (followRedirects resps maxRedirects viaLen st).2.2 = resps.length := by
  induction resps with
  | nil => intro viaLen st _ _; simp [followRedirects]
  | cons p rest ih =>
    intro viaLen st hall hle
    obtain ⟨r, now⟩ := p
    simp only [List.all_cons, Bool.and_eq_true] at hall
    obtain ⟨t, ht⟩ := Option.isSome_iff_exists.mp hall.1
    have hsnap := handleRedirect_snapshot_unconditional r t viaLen maxRedirects
      now st ht
    have hlt : ¬ maxRedirects ≤ viaLen := by
      simp only [List.length_cons] at hle; omega
    have herr : (handleRedirect (some r) viaLen maxRedirects now st).err = none := by
      rw [hsnap.2.1, if_neg hlt]
    have hrest := ih (viaLen + 1)
      (handleRedirect (some r) viaLen maxRedirects now st).state hall.2
      (by simp only [List.length_cons] at hle; omega)
    have hsnapof : snapOf (r, now) = snapInfo r now t := by
      simp [snapOf, ht]
    simp only [followRedirects, herr]
    refine ⟨?_, hrest.2.1, by rw [hrest.2.2]; simp⟩
    rw [hrest.1, hsnap.1]
    simp [hsnapof]

theorem followRedirects_overflow (resps : List (LastResponse × Int))
    (maxRedirects : Nat) :
    ∀ viaLen st, (resps.all fun p => p.1.ctxTiming.isSome) = true →
      viaLen ≤ maxRedirects → maxRedirects < viaLen + resps.length →
      (followRedirects resps maxRedirects viaLen st).2.1
          = some (redirectErrMsg maxRedirects maxRedirects)
        ∧ (followRedirects resps maxRedirects viaLen st).2.2
          = maxRedirects - viaLen + 1
        ∧ (followRedirects resps maxRedirects viaLen st).1.redirects.length
          = st.redirects.length + (maxRedirects - viaLen + 1) := by
  induction resps with
  | nil => intro viaLen st _ _ hover; simp at hover; omega
  | cons p rest ih =>
    intro viaLen st hall hle hover
    obtain ⟨r, now⟩ := p
    simp only [List.all_cons, Bool.and_eq_true] at hall
    obtain ⟨t, ht⟩ := Option.isSome_iff_exists.mp hall.1
    have hsnap := handleRedirect_snapshot_unconditional r t viaLen maxRedirects
      now st ht
    by_cases heq : maxRedirects ≤ viaLen
    · have hv : viaLen = maxRedirects := by omega
      have herr : (handleRedirect (some r) viaLen maxRedirects now st).err
          = some (redirectErrMsg viaLen maxRedirects) := by
        rw [hsnap.2.1, if_pos heq]
      simp only [followRedirects, herr]
      subst hv
      refine ⟨rfl, by omega, ?_⟩
      rw [hsnap.1]
      simp only [List.length_append, List.length_cons, List.length_nil]
      omega
    · have herr : (handleRedirect (some r) viaLen maxRedirects now st).err = none := by
        rw [hsnap.2.1, if_neg heq]
      have hrest := ih (viaLen + 1)
        (handleRedirect (some r) viaLen maxRedirects now st).state hall.2
        (by omega) (by simp only [List.length_cons] at hover; omega)
      simp only [followRedirects, herr]
      refine ⟨hrest.1, by rw [hrest.2.1]; omega, ?_⟩
      rw [hrest.2.2, hsnap.1]
      simp only [List.length_append, List.length_cons, List.length_nil]
      omega

/-- C2: with `resps` the chain of redirect-triggering responses (each
carrying its context Timing, as `createRequest`/`handleRedirect` guarantee)
and checks numbered from `via = 1`:
(a) a transaction with N redirects, N ≤ max − 1, passes every check, the
chain gains exactly the N entries in chronological order, and N checks run;
(b) a target issuing strictly more than max redirects fails with the
redirect-limit error on the max-th check — i.e. before the (max+1)-th
request is issued — after exactly max checks;
(c) with max = 1 against a 3-redirect chain, the transaction fails with the
redirect-limit error and the chain has exactly 1 entry. -/
theorem followRedirects_redirect_limit (resps : List (LastResponse × Int))
    (maxRedirects : Nat) (st : RedirectState)
    (hall : (resps.all fun p => p.1.ctxTiming.isSome) = true) :
    (resps.length + 1 ≤ maxRedirects →
      (followRedirects resps maxRedirects 1 st).1.redirects
        = st.redirects ++ resps.map snapOf
      ∧ (followRedirects resps maxRedirects 1 st).2.1 = none
      ∧ (followRedirects resps maxRedirects 1 st).2.2 = resps.length)
    ∧ (1 ≤ maxRedirects → maxRedirects < resps.length →
      (followRedirects resps maxRedirects 1 st).2.1
        = some (redirectErrMsg maxRedirects maxRedirects)
      ∧ (followRedirects resps maxRedirects 1 st).2.2 = maxRedirects
      ∧ (followRedirects resps maxRedirects 1 st).1.redirects.length
        = st.redirects.length + maxRedirects)
    ∧ (maxRedirects = 1 → resps.length = 3 →
      (followRedirects resps maxRedirects 1 st).2.1
        = some (redirectErrMsg 1 1)
      ∧ (followRedirects resps maxRedirects 1 st).1.redirects.length
        = st.redirects.length + 1) := by
  refine ⟨fun hN => ?_, fun hmax hover => ?_, fun h1 h3 => ?_⟩
  · exact followRedirects_all_pass resps maxRedirects 1 st hall (by omega)
  · have := followRedirects_overflow resps maxRedirects 1 st hall
      (by omega) (by omega)
    exact ⟨this.1, by omega, by rw [this.2.2]; omega⟩
  · subst h1
    have := followRedirects_overflow resps 1 1 st hall (by omega) (by omega)
    exact ⟨this.1, by rw [this.2.2]⟩

/-- Witness for C2: a single redirect against max = 5 passes the check and
produces a one-entry chain. -/
theorem followRedirects_redirect_limit_witness :
    ([((⟨"http://a", 301, "301 Moved Permanently", some zeroTiming, 0⟩
          : LastResponse), (10 : Int))].all fun p => p.1.ctxTiming.isSome) = true
    ∧ ((followRedirects
          [((⟨"http://a", 301, "301 Moved Permanently", some zeroTiming, 0⟩
              : LastResponse), (10 : Int))] 5 1 ⟨[], ⟨[], "", 0⟩, []⟩).1.redirects
        = (⟨[], ⟨[], "", 0⟩, []⟩ : RedirectState).redirects
          ++ [((⟨"http://a", 301, "301 Moved Permanently", some zeroTiming, 0⟩
                : LastResponse), (10 : Int))].map snapOf
      ∧ (followRedirects
          [((⟨"http://a", 301, "301 Moved Permanently", some zeroTiming, 0⟩
              : LastResponse), (10 : Int))] 5 1 ⟨[], ⟨[], "", 0⟩, []⟩).2.1 = none
      ∧ (followRedirects
          [((⟨"http://a", 301, "301 Moved Permanently", some zeroTiming, 0⟩
              : LastResponse), (10 : Int))] 5 1 ⟨[], ⟨[], "", 0⟩, []⟩).2.2
        = [((⟨"http://a", 301, "301 Moved Permanently", some zeroTiming, 0⟩
              : LastResponse), (10 : Int))].length) :=
  ⟨by decide,
    (followRedirects_redirect_limit
      [((⟨"http://a", 301, "301 Moved Permanently", some zeroTiming, 0⟩
          : LastResponse), (10 : Int))] 5 ⟨[], ⟨[], "", 0⟩, []⟩ (by decide)).1
      (by decide)⟩

/-! ## Resolver Strategy (unnamed resolver file, createCustomResolver) -/

/-- The trace body emitted before each DNS dial. -/
def attemptMsg (server : String) : String :=
  s!"Attempting DNS resolution using server: {server}"

/-- `fmt.Errorf("all DNS servers failed, last error: %v", lastErr)`; a nil
`error` prints as `<nil>`. -/
def allFailedMsg : Option String → String
  | none => "all DNS servers failed, last error: <nil>"
  | some e => s!"all DNS servers failed, last error: {e}"

/-- The UDP address dialed for the server at position `i` of the list. -/
def serverAddr (dnsServers : List String) (i : Nat) : String :=
  dnsServers.getD i "" ++ ":53"

/-- The `for i := 0; i < len(dnsServers); i++` loop of the `Dial` closure
built by `createCustomResolver`; `fuel` is the number of iterations left,
`currentServer` the closure-captured rotation pointer (explicit state),
`lastErr` the `lastErr` variable, and `msgs` collects the bodies passed to
`addTraceMessage`.  The environment `dial` is `net.Dial("udp", addr)`:
`.ok ()` when the connection opens.  On success the result carries the
address that was dialed (the opened connection). -/
def dialLoop (dial : String → Except String Unit) (dnsServers : List String) :
    Nat → Nat → Option String → List String →
    Except String String × Nat × List String
  | 0, currentServer, lastErr, msgs =>
    (.error (allFailedMsg lastErr), currentServer, msgs)
  | fuel + 1, currentServer, _lastErr, msgs =>
    let server := dnsServers.getD currentServer ""
    let nextServer := (currentServer + 1) % dnsServers.length
    let msgs2 := msgs ++ [attemptMsg server]
    match dial (server ++ ":53") with
    | .ok _ => (.ok (server ++ ":53"), nextServer, msgs2)
    | .error e => dialLoop dial dnsServers fuel nextServer (some e) msgs2

/-- One resolution attempt of the custom resolver (`createCustomResolver`'s
`Dial` closure), starting from rotation position `currentServer`.  Returns
the result, the rotation pointer left for the next attempt, and the trace
bodies emitted. -/
def resolverDial (dial : String → Except String Unit) (dnsServers : List String)
    (currentServer : Nat) : Except String String × Nat × List String :=
  dialLoop dial dnsServers dnsServers.length currentServer none []

/-- The trace bodies of `k` consecutive dials starting at rotation position
`currentServer`: dial `i` targets position `(currentServer + i) % len`. -/
def triedMsgs (dnsServers : List String) (currentServer k : Nat) : List String :=
  (List.range k).map fun i =>
    attemptMsg (dnsServers.getD ((currentServer + i) % dnsServers.length) "")

theorem rotIndex_shift (len cur i : Nat) :
    ((cur + 1) % len + i) % len = (cur + (i + 1)) % len := by
  rw [Nat.mod_add_mod]
  congr 1
  omega

theorem triedMsgs_shift (dnsServers : List String) (cur k : Nat)
    (hcur : cur < dnsServers.length) :
    attemptMsg (dnsServers.getD cur "")
        :: triedMsgs dnsServers ((cur + 1) % dnsServers.length) k
      = triedMsgs dnsServers cur (k + 1) := by
  unfold triedMsgs
  rw [List.range_succ_eq_map, List.map_cons, List.map_map]
  congr 1
  · simp [Nat.mod_eq_of_lt hcur]
  · apply List.map_congr_left
    intro i _
    simp only [Function.comp_apply, Nat.succ_eq_add_one]
    rw [rotIndex_shift]

theorem rotIndex_inj (len cur i j : Nat) (hij : i < j) (hj : j < len) :
    (cur + i) % len ≠ (cur + j) % len := by
  intro h
  have hmod : i % len = j % len := Nat.ModEq.add_left_cancel' cur h
  rw [Nat.mod_eq_of_lt (by omega), Nat.mod_eq_of_lt hj] at hmod
  omega


theorem dialLoop_spec (dial : String → Except String Unit)
    (dnsServers : List String) (hne : dnsServers ≠ []) :
    ∀ fuel currentServer lastErr msgs, currentServer < dnsServers.length →
      (∃ k, 1 ≤ k ∧ k ≤ fuel
        ∧ (∀ i, i + 1 < k → ∃ e,
            dial (serverAddr dnsServers
              ((currentServer + i) % dnsServers.length)) = .error e)
        ∧ (∃ u, dial (serverAddr dnsServers
            ((currentServer + (k - 1)) % dnsServers.length)) = .ok u)
        ∧ dialLoop dial dnsServers fuel currentServer lastErr msgs
          = (.ok (serverAddr dnsServers
                ((currentServer + (k - 1)) % dnsServers.length)),
             (currentServer + k) % dnsServers.length,
             msgs ++ triedMsgs dnsServers currentServer k))
      ∨ ((∀ i, i < fuel → ∃ e,
            dial (serverAddr dnsServers
              ((currentServer + i) % dnsServers.length)) = .error e)
        ∧ ((fuel = 0
            ∧ dialLoop dial dnsServers fuel currentServer lastErr msgs
              = (.error (allFailedMsg lastErr), currentServer, msgs))
          ∨ (∃ e, dial (serverAddr dnsServers
                ((currentServer + (fuel - 1)) % dnsServers.length)) = .error e
              ∧ dialLoop dial dnsServers fuel currentServer lastErr msgs
                = (.error (allFailedMsg (some e)),
                   (currentServer + fuel) % dnsServers.length,
                   msgs ++ triedMsgs dnsServers currentServer fuel)))) := by
  intro fuel
  induction fuel with
  | zero =>
    intro cur lastErr msgs hcur
    exact Or.inr ⟨fun i h => absurd h (by omega), Or.inl ⟨rfl, rfl⟩⟩
  | succ fuel ih =>
    intro cur lastErr msgs hcur
    have hlen : 0 < dnsServers.length := List.length_pos.mpr hne
    have hcurmod : cur % dnsServers.length = cur := Nat.mod_eq_of_lt hcur
    rcases hdial : dial (serverAddr dnsServers cur) with e | u
    · -- first dial fails
      have hstep : dialLoop dial dnsServers (fuel + 1) cur lastErr msgs
          = dialLoop dial dnsServers fuel ((cur + 1) % dnsServers.length)
              (some e) (msgs ++ [attemptMsg (dnsServers.getD cur "")]) := by
        simp only [dialLoop]
        rw [show dnsServers.getD cur "" ++ ":53" = serverAddr dnsServers cur
          from rfl, hdial]
      rcases Nat.eq_zero_or_pos fuel with hf0 | hfpos
      · -- single iteration: the loop exhausts the servers immediately
        subst hf0
        right
        refine ⟨?_, Or.inr ⟨e, ?_, ?_⟩⟩
        · intro i hi
          have hi0 : i = 0 := by omega
          subst hi0
          exact ⟨e, by rwa [Nat.add_zero, hcurmod]⟩
        · simpa [hcurmod] using hdial
        · rw [hstep]
          simp [dialLoop, triedMsgs, hcurmod, List.range_succ]
      · -- at least one iteration left after this failure: recurse
        rcases ih ((cur + 1) % dnsServers.length) (some e)
            (msgs ++ [attemptMsg (dnsServers.getD cur "")])
            (Nat.mod_lt _ hlen) with
          ⟨k, hk1, hkf, hfails, ⟨u, hok⟩, hout⟩ | ⟨hallfail, hrest⟩
        · left
          refine ⟨k + 1, by omega, by omega, ?_, ?_, ?_⟩
          · intro i hi
            match i with
            | 0 => exact ⟨e, by rwa [Nat.add_zero, hcurmod]⟩
            | j + 1 =>
              have := hfails j (by omega)
              rwa [rotIndex_shift] at this
          · refine ⟨u, ?_⟩
            have hidx : ((cur + 1) % dnsServers.length + (k - 1))
                % dnsServers.length
                = (cur + (k + 1 - 1)) % dnsServers.length := by
              rw [rotIndex_shift]; congr 1; omega
            rwa [hidx] at hok
          · rw [hstep, hout]
            have hidx : ((cur + 1) % dnsServers.length + (k - 1))
                % dnsServers.length
                = (cur + (k + 1 - 1)) % dnsServers.length := by
              rw [rotIndex_shift]; congr 1; omega
            have hidx2 : ((cur + 1) % dnsServers.length + k) % dnsServers.length
                = (cur + (k + 1)) % dnsServers.length := rotIndex_shift _ _ _
            rw [hidx, hidx2, List.append_assoc,
              show [attemptMsg (dnsServers.getD cur "")]
                  ++ triedMsgs dnsServers ((cur + 1) % dnsServers.length) k
                = triedMsgs dnsServers cur (k + 1)
              from triedMsgs_shift _ _ _ hcur]
        · right
          refine ⟨?_, Or.inr ?_⟩
          · intro i hi
            match i with
            | 0 => exact ⟨e, by rwa [Nat.add_zero, hcurmod]⟩
            | j + 1 =>
              have := hallfail j (by omega)
              rwa [rotIndex_shift] at this
          · rcases hrest with ⟨habs, -⟩ | ⟨e2, he2, hout⟩
            · omega
            · refine ⟨e2, ?_, ?_⟩
              · have hidx : ((cur + 1) % dnsServers.length + (fuel - 1))
                    % dnsServers.length
                    = (cur + (fuel + 1 - 1)) % dnsServers.length := by
                  rw [rotIndex_shift]; congr 1; omega
                rwa [hidx] at he2
              · rw [hstep, hout]
                have hidx2 : ((cur + 1) % dnsServers.length + fuel)
                    % dnsServers.length
                    = (cur + (fuel + 1)) % dnsServers.length :=
                  rotIndex_shift _ _ _
                rw [hidx2, List.append_assoc,
                  show [attemptMsg (dnsServers.getD cur "")]
                      ++ triedMsgs dnsServers ((cur + 1) % dnsServers.length) fuel
                    = triedMsgs dnsServers cur (fuel + 1)
                  from triedMsgs_shift _ _ _ hcur]
    · -- first dial succeeds
      left
      refine ⟨1, le_refl 1, by omega, fun i h => absurd h (by omega),
        ⟨u, by simpa [hcurmod] using hdial⟩, ?_⟩
      simp only [dialLoop]
      rw [show dnsServers.getD cur "" ++ ":53" = serverAddr dnsServers cur
        from rfl, hdial]
      simp [serverAddr, triedMsgs, hcurmod, List.range_succ]

/-- C5: one resolution attempt of the custom resolver, started at rotation
position `currentServer` of a non-empty server list, performs some number
`k` of dials (at least one, at most the list length); dial `i` targets
position `(currentServer + i) mod len` — so the attempt starts at the
current rotation position and the pointer advances by one, modulo the list
length, on every dial regardless of its outcome, and the pointer left
behind for the next attempt is `(currentServer + k) mod len` (rotation
state is shared across attempts, never reset); the `k` positions tried are
pairwise distinct, so each server is tried at most once per attempt; every
dial before the last one failed; and either the last dial succeeded and its
connection is returned (the first success), or `k = len`, every server in
the list failed, and the attempt returns the all-servers-failed error
carrying the text of the last underlying error. -/
theorem createCustomResolver_rotation (dial : String → Except String Unit)
    (dnsServers : List String) (currentServer : Nat)
    (hne : dnsServers ≠ []) (hcur : currentServer < dnsServers.length) :
    ∃ k, 1 ≤ k ∧ k ≤ dnsServers.length
      ∧ (resolverDial dial dnsServers currentServer).2.2
        = triedMsgs dnsServers currentServer k
      ∧ (resolverDial dial dnsServers currentServer).2.1
        = (currentServer + k) % dnsServers.length
      ∧ (∀ i j, i < j → j < k →
          (currentServer + i) % dnsServers.length
            ≠ (currentServer + j) % dnsServers.length)
      ∧ (∀ i, i + 1 < k → ∃ e,
          dial (serverAddr dnsServers
            ((currentServer + i) % dnsServers.length)) = .error e)
      ∧ ((∃ u, dial (serverAddr dnsServers
              ((currentServer + (k - 1)) % dnsServers.length)) = .ok u
          ∧ (resolverDial dial dnsServers currentServer).1
            = .ok (serverAddr dnsServers
                ((currentServer + (k - 1)) % dnsServers.length)))
        ∨ (k = dnsServers.length
          ∧ (∀ i, i < dnsServers.length → ∃ e,
              dial (serverAddr dnsServers
                ((currentServer + i) % dnsServers.length)) = .error e)
          ∧ ∃ e, dial (serverAddr dnsServers
                ((currentServer + (dnsServers.length - 1))
                  % dnsServers.length)) = .error e
              ∧ (resolverDial dial dnsServers currentServer).1
                = .error (allFailedMsg (some e)))) := by
  have hlen : 0 < dnsServers.length := List.length_pos.mpr hne
  have hres : resolverDial dial dnsServers currentServer
      = dialLoop dial dnsServers dnsServers.length currentServer none [] := rfl
  rcases dialLoop_spec dial dnsServers hne dnsServers.length currentServer
      none [] hcur with
    ⟨k, hk1, hkl, hfails, ⟨u, hok⟩, hout⟩ | ⟨hallfail, hrest⟩
  · refine ⟨k, hk1, hkl, ?_, ?_, ?_, hfails, Or.inl ⟨u, hok, ?_⟩⟩
    · rw [hres, hout]; simp
    · rw [hres, hout]
    · intro i j hij hjk
      exact rotIndex_inj _ _ _ _ hij (by omega)
    · rw [hres, hout]
  · rcases hrest with ⟨habs, -⟩ | ⟨e, he, hout⟩
    · omega
    · refine ⟨dnsServers.length, hlen, le_refl _, ?_, ?_, ?_, ?_,
        Or.inr ⟨rfl, hallfail, e, he, ?_⟩⟩
      · rw [hres, hout]; simp
      · rw [hres, hout]
      · intro i j hij hjk
        exact rotIndex_inj _ _ _ _ hij (by omega)
      · intro i hi
        exact hallfail i (by omega)
      · rw [hres, hout]

/-- A concrete DNS-dial environment for the C5 witness: server "A" is
unreachable, server "B" answers. -/
def witnessDialC5 : String → Except String Unit :=
  fun a => if a = "B:53" then .ok () else .error "connection refused"

/-- Witness for C5: servers ["A", "B"], rotation position 0; the attempt
dials A (fails) then B (succeeds). -/
theorem createCustomResolver_rotation_witness :
    ((["A", "B"] : List String) ≠ []
      ∧ (0 : Nat) < (["A", "B"] : List String).length)
    ∧ ∃ k, 1 ≤ k ∧ k ≤ (["A", "B"] : List String).length
      ∧ (resolverDial witnessDialC5 ["A", "B"] 0).2.2 = triedMsgs ["A", "B"] 0 k
      ∧ (resolverDial witnessDialC5 ["A", "B"] 0).2.1
        = (0 + k) % (["A", "B"] : List String).length
      ∧ (∀ i j, i < j → j < k →
          (0 + i) % (["A", "B"] : List String).length
            ≠ (0 + j) % (["A", "B"] : List String).length)
      ∧ (∀ i, i + 1 < k → ∃ e,
          witnessDialC5 (serverAddr ["A", "B"]
            ((0 + i) % (["A", "B"] : List String).length)) = .error e)
      ∧ ((∃ u, witnessDialC5 (serverAddr ["A", "B"]
              ((0 + (k - 1)) % (["A", "B"] : List String).length)) = .ok u
          ∧ (resolverDial witnessDialC5 ["A", "B"] 0).1
            = .ok (serverAddr ["A", "B"]
                ((0 + (k - 1)) % (["A", "B"] : List String).length)))
        ∨ (k = (["A", "B"] : List String).length
          ∧ (∀ i, i < (["A", "B"] : List String).length → ∃ e,
              witnessDialC5 (serverAddr ["A", "B"]
                ((0 + i) % (["A", "B"] : List String).length)) = .error e)
          ∧ ∃ e, witnessDialC5 (serverAddr ["A", "B"]
                ((0 + ((["A", "B"] : List String).length - 1))
                  % (["A", "B"] : List String).length)) = .error e
              ∧ (resolverDial witnessDialC5 ["A", "B"] 0).1
                = .error (allFailedMsg (some e)))) :=
  ⟨⟨by decide, by decide⟩,
    createCustomResolver_rotation witnessDialC5 ["A", "B"] 0
      (by decide) (by decide)⟩

/-! ## Dialer Strategy (main.go, customDialer.DialContext) -/

/-- A resolved IP as `DialContext` sees it: its textual form and whether
`ip.To4() != nil` (i.e. the address is representable as IPv4). -/
structure GoIP where
  str : String
  isIPv4 : Bool
deriving DecidableEq

/-- `strings`-level helper: whether the host text contains a colon. -/
def goContainsColon (host : String) : Bool := host.data.contains ':'

/-- Go `net.JoinHostPort`: brackets the host when it contains a colon
(IPv6 literal). -/
def joinHostPort (host port : String) : String :=
  if goContainsColon host then "[" ++ host ++ "]:" ++ port
  else host ++ ":" ++ port

/-- The `for _, ip := range ips` loop of `DialContext`: skips addresses with
`ip.To4() != nil`, dials the rest over the IPv6-only network family
("tcp6") in order, and returns the first successful connection. -/
def tryIPv6Addrs (baseDial : String → String → Except String String)
    (ips : List GoIP) (port : String) : Option String :=
  match ips with
  | [] => none
  | ip :: rest =>
    if ip.isIPv4 = false then
      match baseDial "tcp6" (joinHostPort ip.str port) with
      | .ok conn => some conn
      | .error _ => tryIPv6Addrs baseDial rest port
    else tryIPv6Addrs baseDial rest port

/-- main.go `customDialer.DialContext`.  The environment supplies
`net.SplitHostPort`, `net.DefaultResolver.LookupIP(ctx, "ip6", host)` and
the embedded standard dialer's `DialContext` (network, address);
connections are identified by what the dial returned. -/
def customDialerDialContext
    (splitHostPort : String → Except String (String × String))
    (lookupIPv6 : String → Except String (List GoIP))
    (baseDial : String → String → Except String String)
    (preferIPv6 : Bool) (network address : String) : Except String String :=
  if preferIPv6 then
    match splitHostPort address with
    | .error e => .error e
    | .ok (host, port) =>
      match lookupIPv6 host with
      | .error _ => baseDial network address
      | .ok ips =>
        if ips.length = 0 then baseDial network address
        else
          match tryIPv6Addrs baseDial ips port with
          | some conn => .ok conn
          | none => baseDial network address
  else baseDial network address

/-- Keeps a successful dial outcome, drops a failed one. -/
def exceptOk : Except String String → Option String
  | .ok c => some c
  | .error _ => none

/-- The successful outcomes of dialing each non-IPv4 address in order over
"tcp6"; the head of this list is the first success. -/
def ipv6DialOutcomes (baseDial : String → String → Except String String)
    (ips : List GoIP) (port : String) : List String :=
  ips.filterMap fun ip =>
    if ip.isIPv4 = false then
      exceptOk (baseDial "tcp6" (joinHostPort ip.str port))
    else none

theorem tryIPv6Addrs_eq_head (baseDial : String → String → Except String String)
    (ips : List GoIP) (port : String) :
    tryIPv6Addrs baseDial ips port = (ipv6DialOutcomes baseDial ips port).head? := by
  induction ips with
  | nil => simp [tryIPv6Addrs, ipv6DialOutcomes]
  | cons ip rest ih =>
    by_cases hip : ip.isIPv4 = false
    · rcases hdial : baseDial "tcp6" (joinHostPort ip.str port) with e | conn
      · simp [tryIPv6Addrs, ipv6DialOutcomes, hip, hdial, exceptOk, ih]
      · simp [tryIPv6Addrs, ipv6DialOutcomes, hip, hdial, exceptOk]
    · simp only [Bool.not_eq_false] at hip
      simp [tryIPv6Addrs, ipv6DialOutcomes, hip, ih]

/-- C6: with the IPv6 preference off, `DialContext` delegates directly to
the standard dialer; with it on and the address split into host and port,
a failed IPv6-only resolution falls back to the standard dialer on the
original address; a successful resolution dials each returned non-IPv4
address in order over "tcp6" and returns the first success, falling back
to the standard dialer on the original address when there is none (in
particular when the resolution returned no addresses); consequently any
error it returns in those cases is the standard dialer's own error for the
original address — the dial never fails solely because IPv6 was
unavailable. -/
theorem customDialer_ipv6_preference
    (splitHostPort : String → Except String (String × String))
    (lookupIPv6 : String → Except String (List GoIP))
    (baseDial : String → String → Except String String)
    (network address host port : String) (ips : List GoIP) :
    (customDialerDialContext splitHostPort lookupIPv6 baseDial false
        network address = baseDial network address)
    ∧ (splitHostPort address = .ok (host, port) →
      (∀ e, lookupIPv6 host = .error e →
        customDialerDialContext splitHostPort lookupIPv6 baseDial true
          network address = baseDial network address)
      ∧ (lookupIPv6 host = .ok ips →
        ((ipv6DialOutcomes baseDial ips port).head? = none →
          customDialerDialContext splitHostPort lookupIPv6 baseDial true
            network address = baseDial network address)
        ∧ (∀ conn, (ipv6DialOutcomes baseDial ips port).head? = some conn →
          customDialerDialContext splitHostPort lookupIPv6 baseDial true
            network address = .ok conn))
      ∧ (∀ e2, customDialerDialContext splitHostPort lookupIPv6 baseDial true
            network address = .error e2 →
          baseDial network address = .error e2)) := by
  refine ⟨by simp [customDialerDialContext], fun hsplit => ⟨?_, ?_, ?_⟩⟩
  · intro e hlook
    simp [customDialerDialContext, hsplit, hlook]
  · intro hlook
    constructor
    · intro hnone
      by_cases hlen : ips.length = 0
      · simp [customDialerDialContext, hsplit, hlook, hlen]
      · simp [customDialerDialContext, hsplit, hlook, hlen,
          tryIPv6Addrs_eq_head, hnone]
    · intro conn hsome
      have hlen : ¬ ips.length = 0 := by
        intro h
        rw [List.length_eq_zero.mp h] at hsome
        simp [ipv6DialOutcomes] at hsome
      simp [customDialerDialContext, hsplit, hlook, hlen,
        tryIPv6Addrs_eq_head, hsome]
  · intro e2 hres
    rcases hlook : lookupIPv6 host with el | ips2
    · simpa [customDialerDialContext, hsplit, hlook] using hres
    · by_cases hlen : ips2.length = 0
      · simpa [customDialerDialContext, hsplit, hlook, hlen] using hres
      · rcases htry : tryIPv6Addrs baseDial ips2 port with _ | conn
        · simpa [customDialerDialContext, hsplit, hlook, hlen, htry] using hres
        · rw [show customDialerDialContext splitHostPort lookupIPv6 baseDial
              true network address = .ok conn from by
            simp [customDialerDialContext, hsplit, hlook, hlen, htry]] at hres
          exact absurd hres (by simp)

/-- Witness for C6: IPv6 preference on, but the host has no IPv6 addresses;
the dial falls back to the standard dialer on the original address. -/
theorem customDialer_ipv6_preference_witness :
    ((fun a => if a = "h:80" then Except.ok (("h", "80") : String × String)
        else Except.error "bad") "h:80" = Except.ok (("h", "80") : String × String))
    ∧ ((fun _ => (Except.error "no ipv6" : Except String (List GoIP))) "h"
        = Except.error "no ipv6")
    ∧ customDialerDialContext
        (fun a => if a = "h:80" then Except.ok (("h", "80") : String × String)
          else Except.error "bad")
        (fun _ => (Except.error "no ipv6" : Except String (List GoIP)))
        (fun n a => Except.ok (n ++ "|" ++ a)) true "tcp" "h:80"
      = (fun n a => (Except.ok (n ++ "|" ++ a) : Except String String)) "tcp" "h:80" :=
  ⟨rfl, rfl,
    ((customDialer_ipv6_preference
      (fun a => if a = "h:80" then Except.ok (("h", "80") : String × String)
        else Except.error "bad")
      (fun _ => (Except.error "no ipv6" : Except String (List GoIP)))
      (fun n a => Except.ok (n ++ "|" ++ a)) "tcp" "h:80" "h" "80" []).2
      rfl).1 "no ipv6" rfl⟩

/-- C10: with the IPv6 preference on, a target address that
`net.SplitHostPort` rejects makes `DialContext` return the split error
immediately — for every resolver and standard-dialer behaviour, so no dial
and no fallback happens — while with the preference off the same address is
passed through unchanged to the standard dialer. -/
theorem customDialer_split_error_immediate
    (splitHostPort : String → Except String (String × String))
    (lookupIPv6 : String → Except String (List GoIP))
    (baseDial : String → String → Except String String)
    (network address e : String)
    (h : splitHostPort address = .error e) :
    customDialerDialContext splitHostPort lookupIPv6 baseDial true
        network address = .error e
    ∧ customDialerDialContext splitHostPort lookupIPv6 baseDial false
        network address = baseDial network address := by
  simp [customDialerDialContext, h]

/-- Witness for C10 at a concrete address without a port. -/
theorem customDialer_split_error_immediate_witness :
    ((fun _ => (Except.error "missing port" : Except String (String × String)))
        "nohost" = Except.error "missing port")
    ∧ customDialerDialContext
        (fun _ => (Except.error "missing port" : Except String (String × String)))
        (fun _ => Except.ok []) (fun _ _ => Except.ok "conn") true
        "tcp" "nohost"
      = Except.error "missing port" :=
  ⟨rfl,
    (customDialer_split_error_immediate
      (fun _ => (Except.error "missing port" : Except String (String × String)))
      (fun _ => Except.ok []) (fun _ _ => Except.ok "conn")
      "tcp" "nohost" "missing port" rfl).1⟩

/-- Witness for C7: one well-formed nameserver line, no custom resolver —
the DNSStart hook emits the system-servers message and the host message. -/
theorem getSystemDNSServers_spec_witness :
    (false = false ∧ getSystemDNSServers (some ["nameserver 1.1.1.1"]) ≠ [])
    ∧ dnsStartTraceBodies false (some ["nameserver 1.1.1.1"]) "example.com"
      = [sysDNSMsg (some ["nameserver 1.1.1.1"]), dnsHostMsg "example.com"] :=
  ⟨⟨rfl, by decide⟩,
    (getSystemDNSServers_spec [] false (some ["nameserver 1.1.1.1"])
      "example.com").2.2.2.1 ⟨rfl, by decide⟩⟩
